import Mathlib

/-!
Shallow embedding of the utrackr BitTorrent tracker core (swarm store,
tracker engine, query-parameter parser and parts of the UDP protocol
front-end), together with theorems settling the specification claims.

Machine integers are modelled with `Nat`/`Int`; byte strings with
`List Nat` (each element < 256).  The `i32` swarm counters are modelled
with `Int` (they stay within `i32` range because they are bounded by the
number of stored peers).  `std::time::Instant` is modelled as a second
count (`Nat`); `BTreeMap` is modelled as an association list whose
operations preserve key uniqueness.  Claims proved here do not depend on
the map's iteration order.
-/

namespace UTrackr

/-- Byte strings (20-byte info hashes and peer ids, query keys and values). -/
abbrev Bytes := List Nat

/-- `std::net::IpAddr`: an IPv4 or IPv6 address, carrying its octets. -/
inductive IpAddr where
  | v4 (octets : List Nat)
  | v6 (octets : List Nat)
  deriving DecidableEq, Repr

/-- `IpAddr::is_ipv4`. -/
def IpAddr.isV4 : IpAddr → Bool
  | .v4 _ => true
  | .v6 _ => false

/-- `IpAddr::is_ipv6`. -/
def IpAddr.isV6 : IpAddr → Bool
  | .v4 _ => false
  | .v6 _ => true

/-- `std::net::SocketAddr`: ip plus port. -/
structure SocketAddr where
  ip : IpAddr
  port : Nat
  deriving DecidableEq, Repr

/-- `SocketAddr::is_ipv4`. -/
def SocketAddr.isV4 (a : SocketAddr) : Bool := a.ip.isV4

/-- `SocketAddr::is_ipv6`. -/
def SocketAddr.isV6 (a : SocketAddr) : Bool := a.ip.isV6

/-- `core::swarm::Event` (src/src/utrackr/core/swarm.rs). -/
inductive Event where
  | none
  | completed
  | started
  | stopped
  | paused
  deriving DecidableEq, Repr

/-- `core::swarm::Announce` (src/src/utrackr/core/swarm.rs).  `instant` is
the arrival `Instant` modelled as seconds. -/
structure Announce where
  info_hash : Bytes
  peer_id : Bytes
  downloaded : Int
  uploaded : Int
  left : Int
  event : Event
  addr : SocketAddr
  ip_param : Option IpAddr
  key : Option Nat
  num_want : Int
  instant : Nat
  deriving DecidableEq, Repr

/-- `core::swarm::Peer` (src/src/utrackr/core/swarm.rs). -/
structure Peer where
  downloaded : Int
  uploaded : Int
  left : Int
  addr : SocketAddr
  key : Option Nat
  announce : Nat
  deriving DecidableEq, Repr

/-- `core::swarm::Swarm` (src/src/utrackr/core/swarm.rs): counters plus the
peer map, modelled as an association list with unique keys. -/
structure Swarm where
  complete : Int := 0
  incomplete : Int := 0
  downloaded : Int := 0
  peers : List (Bytes × Peer) := []
  deriving DecidableEq, Repr

/-- `Swarm::default()`. -/
def Swarm.default : Swarm := {}

/-- `BTreeMap::get` on the association-list model. -/
def lookupKV {V : Type} (l : List (Bytes × V)) (k : Bytes) : Option V :=
  (l.find? (fun e => e.1 = k)).map (fun e => e.2)

/-- `BTreeMap::remove` (the value is fetched separately with `lookupKV`). -/
def eraseKV {V : Type} (l : List (Bytes × V)) (k : Bytes) : List (Bytes × V) :=
  l.filter (fun e => ¬ e.1 = k)

/-- `BTreeMap::get_mut` followed by a field overwrite: replace the value
stored under key `k`. -/
def updateKV {V : Type} (l : List (Bytes × V)) (k : Bytes) (v : V) :
    List (Bytes × V) :=
  l.map (fun e => if e.1 = k then (k, v) else e)

/-- `BTreeMap::insert` of a key known to be absent. -/
def insertKV {V : Type} (l : List (Bytes × V)) (k : Bytes) (v : V) :
    List (Bytes × V) :=
  l ++ [(k, v)]

/-- `Swarm::announce` (src/src/utrackr/core/swarm.rs lines 116-158).
`Completed` bumps the lifetime download counter and falls through to
insert-or-update; `Stopped`/`Paused` remove the peer and adjust a counter
by the removed peer's `left`; the in-place update branch overwrites the
peer's fields without touching `complete`/`incomplete`. -/
def Swarm.announceOp (s : Swarm) (a : Announce) : Swarm :=
  match a.event with
  | .stopped | .paused =>
    match lookupKV s.peers a.peer_id with
    | some peer =>
      { s with
        peers := eraseKV s.peers a.peer_id
        complete := if peer.left = 0 then s.complete - 1 else s.complete
        incomplete := if peer.left = 0 then s.incomplete else s.incomplete - 1 }
    | none => s
  | e =>
    let s :=
      if e = Event.completed then { s with downloaded := s.downloaded + 1 } else s
    match lookupKV s.peers a.peer_id with
    | some peer =>
      { s with
        peers := updateKV s.peers a.peer_id
          { peer with
            downloaded := a.downloaded
            uploaded := a.uploaded
            left := a.left
            addr := a.addr
            key := a.key
            announce := a.instant } }
    | none =>
      { s with
        complete := if a.left = 0 then s.complete + 1 else s.complete
        incomplete := if a.left = 0 then s.incomplete else s.incomplete + 1
        peers := insertKV s.peers a.peer_id
          { downloaded := a.downloaded
            uploaded := a.uploaded
            left := a.left
            addr := a.addr
            key := a.key
            announce := a.instant } }

/-- `Swarm::evict` (src/src/utrackr/core/swarm.rs lines 159-171): retain
peers announced less than `threshold` ago, decrementing a counter for each
removed peer (`now - peer.announce` is `Instant` subtraction, truncated at
zero). -/
def Swarm.evictOp (s : Swarm) (now threshold : Nat) : Swarm :=
  let keep := fun (e : Bytes × Peer) => now - e.2.announce < threshold
  let removed := s.peers.filter (fun e => ¬ keep e)
  { s with
    peers := s.peers.filter keep
    complete := s.complete - (removed.filter (fun e => e.2.left = 0)).length
    incomplete := s.incomplete - (removed.filter (fun e => ¬ e.2.left = 0)).length }

/-- Number of stored peers that are seeders (`remaining == 0`). -/
def Swarm.seedersCount (s : Swarm) : Int :=
  ((s.peers.filter (fun e => e.2.left = 0)).length : Int)

/-- Number of stored peers that are leechers (`remaining > 0`). -/
def Swarm.leechersCount (s : Swarm) : Int :=
  ((s.peers.filter (fun e => ¬ e.2.left = 0)).length : Int)

/-- A convenient all-zero 20-byte id. -/
def zeroId : Bytes := List.replicate 20 0

/-- A sample announce used in concrete scenarios. -/
def mkAnnounce (peer_id : Bytes) (left : Int) (event : Event)
    (addr : SocketAddr) (key : Option Nat) (instant : Nat) : Announce :=
  { info_hash := zeroId
    peer_id := peer_id
    downloaded := 0
    uploaded := 0
    left := left
    event := event
    addr := addr
    ip_param := Option.none
    key := key
    num_want := 32
    instant := instant }

/-- 150.150.150.150:6881, the endpoint used by the repository's own tests. -/
def testAddr : SocketAddr := { ip := .v4 [150, 150, 150, 150], port := 6881 }

/-- The swarm obtained by a first announce of peer `01…` with `left = 1`,
followed by a re-announce of the same peer with `left = 0`: the stored
peer becomes a seeder but the counters are not adjusted. -/
def crossingSwarm : Swarm :=
  (Swarm.default.announceOp
      (mkAnnounce (List.replicate 20 1) 1 .started testAddr Option.none 0)).announceOp
    (mkAnnounce (List.replicate 20 1) 0 .none testAddr Option.none 1)

/-- `core::error::Error` (src/src/utrackr/core/error.rs). -/
inductive Error where
  | accessDenied
  | invalidAnnounceUrl
  | invalidInfoHash
  | invalidIpAddress
  | invalidPeerId
  | invalidPort
  | invalidParams
  | internal
  | ipAddressChanged
  | torrentNotFound
  | custom (message : String)
  deriving DecidableEq, Repr

/-- `core::config::TrackerConfig` (src/src/utrackr/core/config.rs).  The
unknown-torrent knob is named `track_unknown_torrents` in config.rs and
read as `announce_unknown_torrents` in tracker.rs; one field models both. -/
structure TrackerConfig where
  interval : Int := 900
  min_interval : Int := 60
  max_interval : Int := 1800
  default_num_want : Int := 32
  max_num_want : Int := 128
  announce_unknown_torrents : Bool := false
  unsafe_trust_ip_param : Bool := false
  trust_ip_param_if_local : Bool := false
  deny_all_ip_changes : Bool := false
  deriving DecidableEq, Repr

/-- `TrackerConfig::default()`. -/
def TrackerConfig.default : TrackerConfig := {}

/-- Modelled from the spec: `Swarm::validate` of the current snapshot is
missing from src — only its caller (`TrackerInner::announce`,
src/src/utrackr/core/tracker.rs line 37), the `Error::IpAddressChanged`
declaration (src/src/utrackr/core/error.rs lines 22-24) and the
`deny_all_ip_changes` knob (src/src/utrackr/core/config.rs lines 174-179)
are present.  Spec §4.2: if the peer-id is already present and the
announce's effective ip differs from the stored endpoint, the request
succeeds only when the stored peer had a key and the announce carries the
same key, else it fails *IpAddressChanged*; the deny-all-ip-changes flag
overrides and always rejects such mismatches.  (The earlier snapshot
src/core/src/swarm.rs lines 85-96 implements the same accept/reject
condition, without the flag and with a differently named error.) -/
def Swarm.validateOp (cfg : TrackerConfig) (s : Swarm) (a : Announce) :
    Except Error Unit :=
  match lookupKV s.peers a.peer_id with
  | some peer =>
    if peer.addr.ip ≠ a.addr.ip then
      if cfg.deny_all_ip_changes then .error .ipAddressChanged
      else if peer.key.isSome ∧ peer.key = a.key then .ok ()
      else .error .ipAddressChanged
    else .ok ()
  | none => .ok ()

/-- The `i32`-to-`usize` cast of `announce.num_want as usize`
(`Swarm::select`): sign extension into 64 bits. -/
def usizeOfI32 (n : Int) : Nat := ((n % (2 ^ 64 : Int)).toNat)

/-- The peers eligible for selection: the exact filter-and-map chain of
`Swarm::select` (src/src/utrackr/core/swarm.rs lines 104-115): never the
requester itself, no seeder when the requester is a seeder, and only
IPv4 peers unless the requester connected over IPv6. -/
def Swarm.selectEligible (s : Swarm) (a : Announce) :
    List (Bytes × SocketAddr) :=
  (s.peers.filter (fun e =>
      ¬ e.1 = a.peer_id ∧ (¬ e.2.left = 0 ∨ ¬ a.left = 0) ∧
        (a.addr.isV6 ∨ e.2.addr.isV4))).map
    (fun e => (e.1, e.2.addr))

/-- Contract of `rand`'s `IteratorRandom::choose_multiple` (external
library): the sample is drawn from the iterator's elements and has length
`min amount population`. -/
def IsSampler
    (choose : List (Bytes × SocketAddr) → Nat → List (Bytes × SocketAddr)) :
    Prop :=
  ∀ l n, (∀ x ∈ choose l n, x ∈ l) ∧ (choose l n).length = min n l.length

/-- A deterministic instance of the `choose_multiple` contract, used to
evaluate concrete scenarios. -/
def takeSampler (l : List (Bytes × SocketAddr)) (n : Nat) :
    List (Bytes × SocketAddr) :=
  l.take n

/-- `Swarm::select`, parameterised by the random sampler. -/
def Swarm.selectOp (s : Swarm) (a : Announce)
    (choose : List (Bytes × SocketAddr) → Nat → List (Bytes × SocketAddr)) :
    List (Bytes × SocketAddr) :=
  choose (s.selectEligible a) (usizeOfI32 a.num_want)

/-- The tracker store (`TrackerInner`, src/src/utrackr/core/tracker.rs):
map from info hash to swarm, plus the configuration. -/
structure Tracker where
  swarms : List (Bytes × Swarm) := []
  config : TrackerConfig := {}
  deriving Repr

/-- `TrackerInner::announce` (src/src/utrackr/core/tracker.rs lines
29-63), returning the reply and the updated store.  If the swarm exists:
validate (an error returns immediately, leaving the store untouched),
compute the reply (counts plus selection, or `none` for
`Stopped`/`Paused`), then apply `Swarm::announce`.  If the swarm is
absent: fail *TorrentNotFound* unless unknown torrents are tracked, in
which case a default swarm receives the announce and is inserted, and the
reply is `none`. -/
def Tracker.announceOp (t : Tracker)
    (choose : List (Bytes × SocketAddr) → Nat → List (Bytes × SocketAddr))
    (a : Announce) :
    Except Error (Option (Int × Int × List (Bytes × SocketAddr))) × Tracker :=
  match lookupKV t.swarms a.info_hash with
  | some swarm =>
    match swarm.validateOp t.config a with
    | .error e => (.error e, t)
    | .ok _ =>
      let res :=
        match a.event with
        | .stopped | .paused => Option.none
        | _ => some (swarm.complete, swarm.incomplete, swarm.selectOp a choose)
      (.ok res,
        { t with swarms := updateKV t.swarms a.info_hash (swarm.announceOp a) })
  | none =>
    if ¬ t.config.announce_unknown_torrents then (.error .torrentNotFound, t)
    else
      (.ok Option.none,
        { t with
          swarms := insertKV t.swarms a.info_hash (Swarm.default.announceOp a) })

def peerId1 : Bytes := List.replicate 20 1

def peerId2 : Bytes := List.replicate 20 2

/-- A two-peer swarm used by the concrete scenarios: a leecher `01…` at
150.150.150.150:6881 (announced at second 10) and a leecher `02…` at
150.150.150.150:6882 (announced at second 10). -/
def c2Peer1 : Peer :=
  { downloaded := 0, uploaded := 0, left := 100, addr := testAddr,
    key := Option.none, announce := 10 }

def addr6882 : SocketAddr := { ip := .v4 [150, 150, 150, 150], port := 6882 }

def c2Peer2 : Peer :=
  { downloaded := 0, uploaded := 0, left := 100, addr := addr6882,
    key := Option.none, announce := 10 }

def c2Swarm : Swarm :=
  { complete := 0, incomplete := 2, downloaded := 0,
    peers := [(peerId1, c2Peer1), (peerId2, c2Peer2)] }

def c2Tracker : Tracker := { swarms := [(zeroId, c2Swarm)] }

def c2Announce (n : Nat) : Announce :=
  mkAnnounce peerId1 100 .none testAddr Option.none n

def addrChanged : SocketAddr := { ip := .v4 [150, 150, 150, 151], port := 6881 }

def c3Peer : Peer :=
  { downloaded := 0, uploaded := 0, left := 100, addr := testAddr,
    key := some 12345, announce := 0 }

def c3Swarm : Swarm :=
  { complete := 0, incomplete := 1, downloaded := 0, peers := [(peerId1, c3Peer)] }

def c3Tracker : Tracker := { swarms := [(zeroId, c3Swarm)] }

/-- Peer `01…` (key 12345) re-announces from 150.150.150.151 with the
wrong key 999. -/
def c3Announce : Announce :=
  mkAnnounce peerId1 100 .none addrChanged (some 999) 5

/-- Peer `01…` (key 12345) re-announces from 150.150.150.151 with the
*matching* key 12345. -/
def c7Announce : Announce :=
  mkAnnounce peerId1 100 .none addrChanged (some 12345) 5

def c7Config : TrackerConfig := { deny_all_ip_changes := true }

def c7Tracker : Tracker := { swarms := [(zeroId, c3Swarm)], config := c7Config }

/-! ## UDP protocol front-end: the scrape request parser
(src/src/utrackr/udp/protocol.rs lines 312-334). -/
/-- `MAX_PACKET_SIZE` (src/src/utrackr/udp/protocol.rs line 17): the
receive buffer `packet: [u8; MAX_PACKET_SIZE]` has exactly this length. -/
def MAX_PACKET_SIZE : Nat := 8192

/-- `MAX_SCRAPE_TORRENTS` (src/src/utrackr/udp/protocol.rs lines 26-32):
length of the `info_hashes` array in `Transaction::scrape`. -/
def MAX_SCRAPE_TORRENTS : Nat := 128

/-- A Rust panic raised by an out-of-bounds array operation. -/
inductive Panic where
  | indexOutOfBounds
  | sliceOutOfRange
  deriving DecidableEq, Repr

/-- `*array_ref!(self.packet, offset, 20)`: read 20 bytes from the fixed
8192-byte receive buffer, panicking when the range leaves the buffer. -/
def readHash20 (pkt : Nat → Nat) (off : Nat) : Except Panic Bytes :=
  if off + 20 ≤ MAX_PACKET_SIZE then
    .ok ((List.range 20).map (fun j => pkt (off + j)))
  else .error .sliceOutOfRange

/-- The info-hash collection loop of `Transaction::scrape`: starting at
offset 16, while `offset < packet_len` read a 20-byte hash, stop at an
all-zero hash, otherwise store it at `info_hashes[i]` — which panics when
`i` reaches `MAX_SCRAPE_TORRENTS`, since the loop never bounds `i` — and
advance.  Returns the list of stored hashes (`&info_hashes[..i]`).
The structural `fuel` argument only makes the recursion structural: every
iteration advances the offset by 20, so with the fuel `packetLen` supplied
by `scrapeHashes` the zero case is never reached. -/
def scrapeHashesLoop (pkt : Nat → Nat) (packetLen : Nat) :
    Nat → Nat → Nat → List Bytes → Except Panic (List Bytes)
  | 0, _off, _i, acc => .ok acc
  | fuel + 1, off, i, acc =>
    if off < packetLen then
      match readHash20 pkt off with
      | .error e => .error e
      | .ok hash =>
        if hash = List.replicate 20 0 then .ok acc
        else if i < MAX_SCRAPE_TORRENTS then
          scrapeHashesLoop pkt packetLen fuel (off + 20) (i + 1) (acc ++ [hash])
        else .error .indexOutOfBounds
    else .ok acc

/-- The hash-collection phase of `Transaction::scrape` on a received
datagram of `packetLen` bytes. -/
def scrapeHashes (pkt : Nat → Nat) (packetLen : Nat) : Except Panic (List Bytes) :=
  scrapeHashesLoop pkt packetLen packetLen 16 0 []

/-- A scrape datagram carrying 129 info-hashes of all `01` bytes after the
16-byte header: 16 + 129 * 20 = 2596 bytes. -/
def scrapePkt129 : Nat → Nat := fun j =>
  if j < 16 then 0 else if j < 2596 then 1 else 0

/-! ## Query parameter parser (src/src/utrackr/core/query.rs). -/
/-- `query::to_digit` (src/src/utrackr/core/query.rs lines 70-83):
`u8` wrapping subtraction is modelled with `(x + 256 - y) % 256` and
`saturating_add(10)` with `min (x + 10) 255`; the source forces the sixth
bit with `b | 0b10_0000` before subtracting `b'a'`. -/
def toDigit (b : Nat) : Option Nat :=
  let digit := (b + 256 - 48) % 256
  if digit < 10 then some digit
  else
    let digit := min (((b ||| 32) + 256 - 97) % 256 + 10) 255
    if digit < 16 then some digit else none

/-- `query::decode_percent_byte` (src/src/utrackr/core/query.rs lines
85-92): try to read two hex digits; on success return the byte and the
advanced iterator (the clone is committed), on failure return `none` (the
iterator stays where it was, just past the `%`). -/
def decodePercentByte (l : List Nat) : Option (Nat × List Nat) :=
  match l with
  | b1 :: b2 :: rest =>
    match toDigit b1, toDigit b2 with
    | some h, some lo => some ((h <<< 4) ||| lo, rest)
    | _, _ => none
  | _ => none

/-- The scratch-buffer write `self.key[key_size] = b; key_size += 1`
guarded by `if key_size >= limit { continue; }`: bytes beyond the buffer
capacity are dropped. -/
def pushLimited (limit : Nat) (acc : List Nat) (b : Nat) : List Nat :=
  if limit ≤ acc.length then acc else acc ++ [b]

/-- Outcome of the key-scanning phase of `QueryParser::next`: input
exhausted without a separator (`next` returns `None`), `&` hit (pair with
empty value), or `=` hit (continue with the value phase). -/
inductive KeyPhase where
  | eof
  | amp (key : List Nat) (rest : List Nat)
  | eq (key : List Nat) (rest : List Nat)
  deriving DecidableEq, Repr

/-- The key-scanning loop of `QueryParser::next` (src/src/utrackr/core/
query.rs lines 27-48): `%` decodes an escape, falling back to a literal
`%` when `decode_percent_byte` fails; `+` decodes to a space; `=` breaks
into the value phase; `&` yields the pair early; anything else is data.
The structural `fuel` argument only makes the recursion structural: every
iteration consumes at least one input byte, so with the fuel
`input.length` supplied by `nextKV` the zero case is never reached. -/
def keyLoop : Nat → List Nat → List Nat → KeyPhase
  | 0, _, _acc => .eof
  | fuel + 1, input, acc =>
    match input with
    | [] => .eof
    | b :: rest =>
      if b = 37 then
        match decodePercentByte rest with
        | some (d, rest') => keyLoop fuel rest' (pushLimited 32 acc d)
        | none => keyLoop fuel rest (pushLimited 32 acc 37)
      else if b = 43 then keyLoop fuel rest (pushLimited 32 acc 32)
      else if b = 61 then .eq acc rest
      else if b = 38 then .amp acc rest
      else keyLoop fuel rest (pushLimited 32 acc b)

/-- The value-scanning loop of `QueryParser::next` (src/src/utrackr/core/
query.rs lines 52-65): like the key phase but `=` is ordinary data and `&`
ends the pair; returns the value and the remaining input.  The `fuel`
argument is slack exactly as in `keyLoop`. -/
def valueLoop : Nat → List Nat → List Nat → List Nat × List Nat
  | 0, _, acc => (acc, [])
  | fuel + 1, input, acc =>
    match input with
    | [] => (acc, [])
    | b :: rest =>
      if b = 37 then
        match decodePercentByte rest with
        | some (d, rest') => valueLoop fuel rest' (pushLimited 256 acc d)
        | none => valueLoop fuel rest (pushLimited 256 acc 37)
      else if b = 43 then valueLoop fuel rest (pushLimited 256 acc 32)
      else if b = 38 then (acc, rest)
      else valueLoop fuel rest (pushLimited 256 acc b)

/-- `QueryParser::next` (src/src/utrackr/core/query.rs lines 27-67),
returning the decoded key/value pair and the rest of the input (the
iterator state), or `none` once the input is exhausted.  There is no
error outcome: the parser is total. -/
def nextKV (input : List Nat) : Option (List Nat × List Nat × List Nat) :=
  match keyLoop input.length input [] with
  | .eof => none
  | .amp k rest => some (k, [], rest)
  | .eq k rest =>
    let v := valueLoop rest.length rest []
    some (k, v.1, v.2)

/-! ## Announce parameter parser (src/src/utrackr/core/params.rs). -/
/-- The bytes of an ASCII string literal (all recognized parameter names
and event values are ASCII, where UTF-8 coincides with the code points). -/
def asciiBytes (s : String) : Bytes := s.data.map Char.toNat

/-- Modelled from std (not part of this repository): `str::from_utf8`
followed by `FromStr` for an unsigned integer type with maximum `max`:
an optional leading `+`, then one or more decimal ASCII digits, with
overflow rejected.  A byte string in this grammar is valid UTF-8, and any
byte string outside it is rejected by `parse` whether or not it is valid
UTF-8, so the UTF-8 precheck needs no separate model. -/
def rustParseUnsigned (l : Bytes) (max : Nat) : Option Nat :=
  let digits := match l with
    | 43 :: rest => rest
    | _ => l
  if digits = [] then none
  else if digits.all (fun b => decide (48 ≤ b ∧ b ≤ 57)) then
    let v := digits.foldl (fun n b => n * 10 + (b - 48)) 0
    if v ≤ max then some v else none
  else none

/-- Modelled from std (not part of this repository): `str::from_utf8`
followed by `FromStr` for a signed integer type with range `[lo, hi]`:
an optional leading `+` or `-`, then one or more decimal ASCII digits,
with overflow rejected. -/
def rustParseSigned (l : Bytes) (lo hi : Int) : Option Int :=
  let signDigits : Bool × Bytes := match l with
    | 45 :: rest => (true, rest)
    | 43 :: rest => (false, rest)
    | _ => (false, l)
  let digits := signDigits.2
  if digits = [] then none
  else if digits.all (fun b => decide (48 ≤ b ∧ b ≤ 57)) then
    let v : Int := (digits.foldl (fun n b => n * 10 + (b - 48)) 0 : Nat)
    let v := if signDigits.1 then -v else v
    if lo ≤ v ∧ v ≤ hi then some v else none
  else none

def i64Min : Int := -(2 ^ 63)

def i64Max : Int := 2 ^ 63 - 1

def i32Min : Int := -(2 ^ 31)

def i32Max : Int := 2 ^ 31 - 1

def u32Max : Nat := 2 ^ 32 - 1

/-- Modelled from std (not part of this repository): one octet of the
IPv4 dotted-quad grammar of `FromStr` for `Ipv4Addr`: one to three
decimal digits, no leading zero, value at most 255. -/
def parseIpv4Octet (l : Bytes) : Option Nat :=
  if l = [] then none
  else if 3 < l.length then none
  else if l.all (fun b => decide (48 ≤ b ∧ b ≤ 57)) then
    if 1 < l.length ∧ l.head? = some 48 then none
    else
      let v := l.foldl (fun n b => n * 10 + (b - 48)) 0
      if v ≤ 255 then some v else none
  else none

/-- Modelled from std (not part of this repository): `FromStr` for
`IpAddr`.  The IPv4 dotted-quad grammar is modelled exactly; the IPv6
textual grammar is not modelled and such strings are rejected here.  No
claim depends on which ip strings are accepted: the `ip` parameter only
matters to C8 through "a successful parse stores the field". -/
def parseIpAddr (l : Bytes) : Option IpAddr :=
  match (l.splitOn 46).mapM parseIpv4Octet with
  | some [a, b, c, d] => some (.v4 [a, b, c, d])
  | _ => none

/-- `ParseAnnounceParams` (src/src/utrackr/core/params.rs lines 54-77),
with `EmptyParamsParser` (the default no-op) as the extension. -/
structure ParseState where
  info_hash : Option Bytes
  peer_id : Option Bytes
  port : Nat
  remote_ip : IpAddr
  unsafe_ip : Option IpAddr
  uploaded : Option Int
  downloaded : Option Int
  left : Option Int
  event : Option Event
  num_want : Option Int
  key : Option Nat
  deriving DecidableEq, Repr

/-- `ParseAnnounceParams::with_extension` (src/src/utrackr/core/params.rs
lines 79-99): every optional field starts unset and `port` starts 0. -/
def ParseState.init (remote_ip : IpAddr) : ParseState :=
  { info_hash := Option.none
    peer_id := Option.none
    port := 0
    remote_ip := remote_ip
    unsafe_ip := Option.none
    uploaded := Option.none
    downloaded := Option.none
    left := Option.none
    event := Option.none
    num_want := Option.none
    key := Option.none }

/-- `ParamsParser::parse` for `ParseAnnounceParams`
(src/src/utrackr/core/params.rs lines 141-230): dispatch on the key; each
recognized arm first rejects a second declaration (together with the
arm's length checks) with its field-specific error, then parses the value;
unrecognized keys go to the `EmptyParamsParser` extension, a no-op. -/
def parseField (st : ParseState) (k v : Bytes) : Except Error ParseState :=
  if k = asciiBytes ("info_hash") then
    if st.info_hash.isSome ∨ ¬ v.length = 20 then .error .invalidInfoHash
    else .ok { st with info_hash := some v }
  else if k = asciiBytes ("peer_id") then
    if st.peer_id.isSome ∨ ¬ v.length = 20 then .error .invalidPeerId
    else .ok { st with peer_id := some v }
  else if k = asciiBytes ("port") then
    if ¬ st.port = 0 ∨ 5 < v.length ∨ v = [] then .error .invalidPort
    else
      match rustParseUnsigned v 65535 with
      | some p => if p = 0 then .error .invalidPort else .ok { st with port := p }
      | none => .error .invalidPort
  else if k = asciiBytes ("uploaded") then
    if st.uploaded.isSome ∨ 19 < v.length ∨ v = [] then .error .invalidParams
    else
      match rustParseSigned v i64Min i64Max with
      | some n => .ok { st with uploaded := some n }
      | none => .error .invalidParams
  else if k = asciiBytes ("downloaded") then
    if st.downloaded.isSome ∨ 19 < v.length ∨ v = [] then .error .invalidParams
    else
      match rustParseSigned v i64Min i64Max with
      | some n => .ok { st with downloaded := some n }
      | none => .error .invalidParams
  else if k = asciiBytes ("left") then
    if st.left.isSome ∨ 19 < v.length ∨ v = [] then .error .invalidParams
    else
      match rustParseSigned v i64Min i64Max with
      | some n => .ok { st with left := some n }
      | none => .error .invalidParams
  else if k = asciiBytes ("event") then
    if st.event.isSome then .error .invalidParams
    else
      let ev : Event :=
        if v = asciiBytes ("started") then .started
        else if v = asciiBytes ("stopped") then .stopped
        else if v = asciiBytes ("completed") then .completed
        else .none
      .ok { st with event := some ev }
  else if k = asciiBytes ("ip") then
    if st.unsafe_ip.isSome then .error .invalidParams
    else
      match parseIpAddr v with
      | some ip => .ok { st with unsafe_ip := some ip }
      | none => .error .invalidParams
  else if k = asciiBytes ("numwant") then
    if st.num_want.isSome then .error .invalidParams
    else
      match rustParseSigned v i32Min i32Max with
      | some n => .ok { st with num_want := some n }
      | none => .error .invalidParams
  else if k = asciiBytes ("key") then
    if st.key.isSome then .error .invalidParams
    else
      match rustParseUnsigned v u32Max with
      | some n => .ok { st with key := some n }
      | none => .error .invalidParams
  else .ok st

/-- The driver loop of `parse_extensions`
(src/src/utrackr/udp/extensions.rs lines 119-122) at the level of the
key/value pairs the query parser yields: feed each pair to
`ParamsParser::parse`, short-circuiting on the first error. -/
def parsePairs (st : ParseState) : List (Bytes × Bytes) → Except Error ParseState
  | [] => .ok st
  | (k, v) :: rest =>
    match parseField st k v with
    | .ok st' => parsePairs st' rest
    | .error e => .error e

/-- The error a second declaration of a recognized field produces: the
field-specific error of the `info_hash`, `peer_id` and `port` arms, and
*InvalidParameters* for the seven remaining recognized fields. -/
def dupError (k : Bytes) : Option Error :=
  if k = asciiBytes ("info_hash") then some .invalidInfoHash
  else if k = asciiBytes ("peer_id") then some .invalidPeerId
  else if k = asciiBytes ("port") then some .invalidPort
  else if k = asciiBytes ("uploaded") ∨ k = asciiBytes ("downloaded") ∨
      k = asciiBytes ("left") ∨ k = asciiBytes ("event") ∨ k = asciiBytes ("ip") ∨
      k = asciiBytes ("numwant") ∨ k = asciiBytes ("key") then some .invalidParams
  else none

/-- Once a parse step succeeds, every field that was set stays set. -/
def StateMono (st st' : ParseState) : Prop :=
  (st.info_hash.isSome = true → st'.info_hash.isSome = true) ∧
  (st.peer_id.isSome = true → st'.peer_id.isSome = true) ∧
  (¬ st.port = 0 → ¬ st'.port = 0) ∧
  (st.uploaded.isSome = true → st'.uploaded.isSome = true) ∧
  (st.downloaded.isSome = true → st'.downloaded.isSome = true) ∧
  (st.left.isSome = true → st'.left.isSome = true) ∧
  (st.event.isSome = true → st'.event.isSome = true) ∧
  (st.unsafe_ip.isSome = true → st'.unsafe_ip.isSome = true) ∧
  (st.num_want.isSome = true → st'.num_want.isSome = true) ∧
  (st.key.isSome = true → st'.key.isSome = true)

/-- The request-string loop of `parse_extensions`
(src/src/utrackr/udp/extensions.rs lines 119-122 and 127): pull key/value
pairs out of the query parser until it is exhausted, feeding each to
`ParamsParser::parse` and short-circuiting on the first error.  The
structural `fuel` argument only makes the recursion structural: every
yielded pair consumes at least one input byte, so with the fuel
`input.length` supplied by `runQuery` the zero case is never reached. -/
def runQueryLoop : Nat → ParseState → List Nat → Except Error ParseState
  | 0, st, _ => .ok st
  | fuel + 1, st, input =>
    match nextKV input with
    | none => .ok st
    | some (k, v, rest) =>
      match parseField st k v with
      | .ok st' => runQueryLoop fuel st' rest
      | .error e => .error e

/-- Parse a whole announce query string from scratch. -/
def runQuery (remote_ip : IpAddr) (input : List Nat) : Except Error ParseState :=
  runQueryLoop input.length (ParseState.init remote_ip) input

/-- The query string `info_hash=AAA…A&info_hash=AAA…A` (twenty `A`s each). -/
def c8Query : List Nat :=
  asciiBytes ("info_hash=AAAAAAAAAAAAAAAAAAAA&info_hash=AAAAAAAAAAAAAAAAAAAA")

/-! ## Connection-id handshake (src/src/utrackr/udp/protocol.rs lines
57-102).  The SHA-256 digest comes from the external `ring` library; the
embedding is parameterised by the digest function, which suffices for
every property of the handshake that does not rest on collision-freeness
of the truncated hash. -/
/-- `u64::to_be_bytes`. -/
def beBytes8 (n : Nat) : List Nat :=
  (List.range 8).map (fun i => n / 2 ^ (8 * (7 - i)) % 256)

/-- `ip_to_bytes` (src/src/utrackr/udp/protocol.rs lines 57-63): IPv4 is
mapped into IPv4-mapped IPv6 octets. -/
def ipToBytes : IpAddr → List Nat
  | .v4 o => List.replicate 10 0 ++ [255, 255] ++ o
  | .v6 o => o

/-- `make_connection_id` (src/src/utrackr/udp/protocol.rs lines 65-80):
the first 8 bytes of `digest (secret ++ be64 window ++ ip16)`, with
`digest` standing for the `ring` SHA-256 call. -/
def makeConnectionId (digest : List Nat → List Nat) (secret : Bytes)
    (window : Nat) (ip16 : List Nat) : List Nat :=
  (digest (secret ++ (beBytes8 window ++ ip16))).take 8

/-- `verify_connection_id` (src/src/utrackr/udp/protocol.rs lines 82-93):
accept an id that matches the current window or the previous one
(`time_frame - 1` is `u64` subtraction; `Nat` subtraction matches it for
every `time_frame ≥ 1`, i.e. from 1970-01-01 00:02 on). -/
def verifyConnectionId (digest : List Nat → List Nat) (secret : Bytes)
    (timeFrame : Nat) (ip : IpAddr) (cid : List Nat) : Bool :=
  cid == makeConnectionId digest secret timeFrame (ipToBytes ip) ||
    cid == makeConnectionId digest secret (timeFrame - 1) (ipToBytes ip)

/-- `two_min_window` (src/src/utrackr/udp/protocol.rs lines 95-102) at
wall-clock second `t`. -/
def twoMinWindow (t : Nat) : Nat := t / 120

/-! ## Theorems settling the claims, with their supporting lemmas. -/

/-- C1: after every sequence of announce and evict operations the seeder
counter equals the number of stored peers with `left == 0` and the leecher
counter the number with `left > 0`, in particular after an existing peer
re-announces with a `left` value crossing zero.  REFUTED on the code: the
in-place update branch of `Swarm::announce` overwrites `left` without
adjusting the counters.  After peer `01…` announces with `left = 1` and
then re-announces with `left = 0`, the swarm stores one seeder and no
leecher, yet `complete = 0` and `incomplete = 1`. -/
theorem C1_counter_invariant_fails_on_crossing_update :
    crossingSwarm.seedersCount = 1 ∧ crossingSwarm.leechersCount = 0 ∧
      crossingSwarm.complete = 0 ∧ crossingSwarm.incomplete = 1 ∧
      ¬ (crossingSwarm.complete = crossingSwarm.seedersCount ∧
          crossingSwarm.incomplete = crossingSwarm.leechersCount) := by
  decide

theorem takeSampler_isSampler : IsSampler takeSampler := by
  intro l n
  constructor
  · intro x hx
    exact List.mem_of_mem_take hx
  · simp [takeSampler]

theorem lookupKV_nil {V : Type} (k : Bytes) : lookupKV ([] : List (Bytes × V)) k = none := rfl

theorem lookupKV_append_of_none {V : Type} (l1 l2 : List (Bytes × V)) (k : Bytes)
    (h : lookupKV l1 k = none) : lookupKV (l1 ++ l2) k = lookupKV l2 k := by
  induction l1 with
  | nil => simp
  | cons e l ih =>
    simp only [lookupKV, List.find?] at h ⊢
    rcases hd : decide (e.1 = k) with _ | _
    · simp only [hd] at h ⊢
      exact ih h
    · simp only [hd] at h
      simp at h

theorem lookupKV_cons_self {V : Type} (e : Bytes × V) (l : List (Bytes × V))
    (h : e.1 = k) : lookupKV (e :: l) k = some e.2 := by
  simp [lookupKV, List.find?, h]

theorem lookupKV_cons_ne {V : Type} (e : Bytes × V) (l : List (Bytes × V))
    (h : ¬ e.1 = k) : lookupKV (e :: l) k = lookupKV l k := by
  simp [lookupKV, List.find?, h]

theorem lookupKV_insertKV_self {V : Type} (l : List (Bytes × V)) (k : Bytes) (v : V)
    (h : lookupKV l k = none) : lookupKV (insertKV l k v) k = some v := by
  rw [insertKV, lookupKV_append_of_none l _ k h]
  simp [lookupKV, List.find?]

theorem lookupKV_insertKV_ne {V : Type} (l : List (Bytes × V)) (k h' : Bytes) (v : V)
    (hne : ¬ h' = k) : lookupKV (insertKV l k v) h' = lookupKV l h' := by
  induction l with
  | nil =>
    simp only [insertKV, List.nil_append]
    rw [lookupKV_cons_ne _ _ (fun hk => hne hk.symm)]
  | cons e l ih =>
    simp only [insertKV, List.cons_append] at ih ⊢
    rcases he : decide (e.1 = h') with _ | _
    · have hne2 : ¬ e.1 = h' := of_decide_eq_false he
      rw [lookupKV_cons_ne _ _ hne2, lookupKV_cons_ne _ _ hne2]
      exact ih
    · have heq : e.1 = h' := of_decide_eq_true he
      rw [lookupKV_cons_self _ _ heq, lookupKV_cons_self _ _ heq]

/-- C9: with unknown-torrent tracking enabled, an `event = stopped`
announce for an absent torrent succeeds with reply `None` (no counts, no
peer list) and inserts a brand-new swarm — no peers, all counters zero —
into the map, leaving every other torrent's entry unchanged.  CONFIRMED:
the unknown-torrent branch of `TrackerInner::announce` applies the
announce to `Swarm::default()`, and `Swarm::announce` with `Stopped` on an
empty swarm removes nothing and returns. -/
theorem C9_stopped_unknown_torrent_inserts_empty_swarm
    (t : Tracker)
    (choose : List (Bytes × SocketAddr) → Nat → List (Bytes × SocketAddr))
    (a : Announce)
    (ht : t.config.announce_unknown_torrents = true)
    (habs : lookupKV t.swarms a.info_hash = none)
    (hev : a.event = .stopped) :
    (t.announceOp choose a).1 = .ok Option.none ∧
      lookupKV (t.announceOp choose a).2.swarms a.info_hash = some Swarm.default ∧
      Swarm.default.peers = [] ∧ Swarm.default.complete = 0 ∧
      Swarm.default.incomplete = 0 ∧ Swarm.default.downloaded = 0 ∧
      (∀ h, ¬ h = a.info_hash →
        lookupKV (t.announceOp choose a).2.swarms h = lookupKV t.swarms h) := by
  have hstop : Swarm.default.announceOp a = Swarm.default := by
    rw [Swarm.announceOp, hev]
    rfl
  have hres : t.announceOp choose a =
      (.ok Option.none,
        { t with swarms := insertKV t.swarms a.info_hash (Swarm.default.announceOp a) }) := by
    rw [Tracker.announceOp, habs]
    simp [ht]
  rw [hres, hstop]
  refine ⟨rfl, lookupKV_insertKV_self _ _ _ habs, rfl, rfl, rfl, rfl, ?_⟩
  intro h hne
  exact lookupKV_insertKV_ne _ _ _ _ hne

/-- Witness for C9 at a concrete store: empty tracker with unknown-torrent
tracking on, a stopped announce from peer `01…`. -/
theorem C9_stopped_unknown_torrent_inserts_empty_swarm_witness :
    (({ config := { announce_unknown_torrents := true } } : Tracker).announceOp
        takeSampler (mkAnnounce (List.replicate 20 1) 100 .stopped testAddr Option.none 0)).1 =
      .ok Option.none ∧
      lookupKV (({ config := { announce_unknown_torrents := true } } : Tracker).announceOp
          takeSampler
          (mkAnnounce (List.replicate 20 1) 100 .stopped testAddr Option.none 0)).2.swarms
        (mkAnnounce (List.replicate 20 1) 100 .stopped testAddr Option.none 0).info_hash =
        some Swarm.default := by
  have h := C9_stopped_unknown_torrent_inserts_empty_swarm
    { config := { announce_unknown_torrents := true } } takeSampler
    (mkAnnounce (List.replicate 20 1) 100 .stopped testAddr Option.none 0)
    rfl rfl rfl
  exact ⟨h.1, h.2.1⟩

theorem SocketAddr.isV6_eq_false_of_isV4 (x : SocketAddr) (h : x.isV4 = true) :
    x.isV6 = false := by
  rcases x with ⟨ip, port⟩
  cases ip <;> simp_all [SocketAddr.isV4, SocketAddr.isV6, IpAddr.isV4, IpAddr.isV6]

/-- C4: every peer returned by `Swarm::select` differs from the requester,
is a leecher whenever the requester is a seeder, and has an IPv4 address
whenever the requester's address is IPv4.  CONFIRMED: `select` samples
from the iterator the filter produces, and the filter enforces exactly
these three conditions. -/
theorem C4_select_respects_filters (s : Swarm) (a : Announce)
    (choose : List (Bytes × SocketAddr) → Nat → List (Bytes × SocketAddr))
    (hc : IsSampler choose) :
    ∀ p ∈ s.selectOp a choose,
      ¬ p.1 = a.peer_id ∧
      (a.addr.isV4 = true → p.2.isV4 = true) ∧
      (∃ peer : Peer, (p.1, peer) ∈ s.peers ∧ peer.addr = p.2 ∧
        (a.left = 0 → ¬ peer.left = 0)) := by
  intro p hp
  have hmem : p ∈ s.selectEligible a := (hc (s.selectEligible a) _).1 p hp
  rw [Swarm.selectEligible] at hmem
  rcases List.mem_map.mp hmem with ⟨e, he, rfl⟩
  rcases List.mem_filter.mp he with ⟨hin, hcond⟩
  obtain ⟨h1, h2, h3⟩ := of_decide_eq_true hcond
  refine ⟨h1, ?_, e.2, ?_, rfl, ?_⟩
  · intro hv4
    rcases h3 with h3 | h3
    · rw [SocketAddr.isV6_eq_false_of_isV4 a.addr hv4] at h3
      exact absurd h3 (by simp)
    · exact h3
  · rcases e with ⟨id, peer⟩
    exact hin
  · intro hl0
    rcases h2 with h2 | h2
    · exact h2
    · exact absurd hl0 h2

/-- Witness for C4: the sampler contract holds of `takeSampler` and the
filters hold of the one peer selected for `01…`'s announce. -/
theorem C4_select_respects_filters_witness :
    IsSampler takeSampler ∧
      ∀ p ∈ c2Swarm.selectOp (c2Announce 11) takeSampler,
        ¬ p.1 = (c2Announce 11).peer_id ∧
        ((c2Announce 11).addr.isV4 = true → p.2.isV4 = true) ∧
        (∃ peer : Peer, (p.1, peer) ∈ c2Swarm.peers ∧ peer.addr = p.2 ∧
          ((c2Announce 11).left = 0 → ¬ peer.left = 0)) :=
  ⟨takeSampler_isSampler,
    C4_select_respects_filters c2Swarm (c2Announce 11) takeSampler
      takeSampler_isSampler⟩

/-- C2: a re-announce arriving within `min_interval` of the stored peer's
last announce should get the counts with an *empty* peer list while the
state update is still applied.  REFUTED by the code: `TrackerInner::announce`
never consults `min_interval` or the stored last-announce time (no code in
the repository reads `min_interval`), so peer `01…`, stored with
last-announce second 10, re-announcing at second 11 (and indeed at every
arrival second `n`) receives the sampled, non-empty peer list; the state
update is applied as claimed.  This contradicts the config field's own
documentation (src/src/utrackr/core/config.rs lines 121-124). -/
theorem C2_min_interval_not_enforced :
    (∀ n : Nat, (c2Tracker.announceOp takeSampler (c2Announce n)).1 =
        .ok (some (0, 2, [(peerId2, addr6882)]))) ∧
      ¬ ([(peerId2, addr6882)] = ([] : List (Bytes × SocketAddr))) ∧
      c2Tracker.config.min_interval = 60 ∧
      c2Peer1.announce = 10 ∧
      (lookupKV (c2Tracker.announceOp takeSampler (c2Announce 11)).2.swarms
            zeroId).bind
          (fun s => (lookupKV s.peers peerId1).map (fun p => p.announce)) =
        some 11 := by
  refine ⟨fun n => rfl, by simp, rfl, rfl, by decide⟩

/-- C3: when the peer-id is already stored with a different effective ip
and the deny-all-ip-changes flag is clear (the default), validation
succeeds exactly when the stored peer has a key and the announce carries
the same key; otherwise the announce fails *IpAddressChanged* and the
tracker store is unchanged.  CONFIRMED against the spec-modelled
`Swarm::validate` (see `Swarm.validateOp`); the earlier in-src variant
(src/core/src/swarm.rs lines 85-96) implements the same accept/reject
condition. -/
theorem C3_ip_change_requires_matching_key
    (t : Tracker)
    (choose : List (Bytes × SocketAddr) → Nat → List (Bytes × SocketAddr))
    (a : Announce) (s : Swarm) (peer : Peer)
    (hdeny : t.config.deny_all_ip_changes = false)
    (hs : lookupKV t.swarms a.info_hash = some s)
    (hp : lookupKV s.peers a.peer_id = some peer)
    (hip : ¬ peer.addr.ip = a.addr.ip) :
    (s.validateOp t.config a = .ok () ↔
      (peer.key.isSome = true ∧ peer.key = a.key)) ∧
    (¬ (peer.key.isSome = true ∧ peer.key = a.key) →
      s.validateOp t.config a = .error .ipAddressChanged ∧
      t.announceOp choose a = (.error .ipAddressChanged, t)) := by
  have hv : s.validateOp t.config a =
      if peer.key.isSome = true ∧ peer.key = a.key then .ok ()
      else .error .ipAddressChanged := by
    simp only [Swarm.validateOp, hp]
    rw [if_pos hip, if_neg (by simp [hdeny])]
  constructor
  · rw [hv]
    by_cases hc : peer.key.isSome = true ∧ peer.key = a.key
    · rw [if_pos hc]
      exact iff_of_true rfl hc
    · rw [if_neg hc]
      exact iff_of_false (by simp) hc
  · intro hc
    have hverr : s.validateOp t.config a = .error .ipAddressChanged := by
      rw [hv, if_neg hc]
    refine ⟨hverr, ?_⟩
    simp only [Tracker.announceOp, hs, hverr]

/-- Witness for C3 at the concrete scenario of the repository's own
`test_announce_deny_ip_change_with_wrong_key`. -/
theorem C3_ip_change_requires_matching_key_witness :
    (c3Swarm.validateOp c3Tracker.config c3Announce = .ok () ↔
      (c3Peer.key.isSome = true ∧ c3Peer.key = c3Announce.key)) ∧
    (¬ (c3Peer.key.isSome = true ∧ c3Peer.key = c3Announce.key) →
      c3Swarm.validateOp c3Tracker.config c3Announce = .error .ipAddressChanged ∧
      c3Tracker.announceOp takeSampler c3Announce =
        (.error .ipAddressChanged, c3Tracker)) :=
  C3_ip_change_requires_matching_key c3Tracker takeSampler c3Announce c3Swarm
    c3Peer rfl rfl rfl (by decide)

/-- C7: with the deny-all-ip-changes flag set, an announce whose peer-id
is stored with a differing effective ip is always rejected, even when the
stored key is present and equal to the announce's key.  CONFIRMED against
the spec-modelled `Swarm::validate` (the flag's branch precedes the key
comparison and rejects unconditionally). -/
theorem C7_deny_all_ip_changes_rejects
    (cfg : TrackerConfig) (s : Swarm) (a : Announce) (peer : Peer)
    (hdeny : cfg.deny_all_ip_changes = true)
    (hp : lookupKV s.peers a.peer_id = some peer)
    (hip : ¬ peer.addr.ip = a.addr.ip) :
    s.validateOp cfg a = .error .ipAddressChanged ∧
    (∀ (t : Tracker)
        (choose : List (Bytes × SocketAddr) → Nat → List (Bytes × SocketAddr)),
      t.config = cfg → lookupKV t.swarms a.info_hash = some s →
      t.announceOp choose a = (.error .ipAddressChanged, t)) := by
  have hverr : s.validateOp cfg a = .error .ipAddressChanged := by
    simp only [Swarm.validateOp, hp]
    rw [if_pos hip, if_pos hdeny]
  refine ⟨hverr, ?_⟩
  intro t choose hcfg hs
  simp only [Tracker.announceOp, hs, hcfg, hverr]

/-- Witness for C7: rejection despite the matching key. -/
theorem C7_deny_all_ip_changes_rejects_witness :
    c3Swarm.validateOp c7Config c7Announce = .error .ipAddressChanged ∧
    (∀ (t : Tracker)
        (choose : List (Bytes × SocketAddr) → Nat → List (Bytes × SocketAddr)),
      t.config = c7Config → lookupKV t.swarms c7Announce.info_hash = some c3Swarm →
      t.announceOp choose c7Announce = (.error .ipAddressChanged, t)) :=
  C7_deny_all_ip_changes_rejects c7Config c3Swarm c7Announce c3Peer rfl rfl
    (by decide)

set_option maxRecDepth 100000 in
/-- C6: the scrape handler should store at most `MAX_SCRAPE_TORRENTS = 128`
hashes and perform only in-bounds accesses, so a datagram with more than
128 non-zero hashes is handled without panicking.  REFUTED by the code:
the collection loop never checks `i` against the array length, so the
129-hash datagram above (2596 bytes, within the accepted 36..8192 range)
stores the 129th hash at `info_hashes[128]`, out of bounds — a panic —
while the same datagram truncated to 128 hashes (2576 bytes) is fine. -/
theorem C6_scrape_loop_overruns_info_hashes :
    scrapeHashes scrapePkt129 2596 = .error .indexOutOfBounds ∧
      (scrapeHashes scrapePkt129 2576).isOk = true ∧
      36 ≤ 2596 ∧ 2596 ≤ MAX_PACKET_SIZE ∧ 16 + 129 * 20 = 2596 := by
  exact ⟨rfl, rfl, by decide, by decide, by decide⟩

theorem decodePercentByte_length {l : List Nat} {d : Nat} {r : List Nat}
    (h : decodePercentByte l = some (d, r)) : r.length + 2 = l.length := by
  match l with
  | [] => exact absurd h (by simp [decodePercentByte])
  | [b] => exact absurd h (by simp [decodePercentByte])
  | b1 :: b2 :: rest =>
    rcases h1 : toDigit b1 with _ | d1 <;> rcases h2 : toDigit b2 with _ | d2 <;>
      simp [decodePercentByte, h1, h2] at h
    obtain ⟨_, h⟩ := h
    simp [← h]

set_option maxRecDepth 40000 in
/-- C10: the query parser is total (its embedding returns `Option` results
with no error outcome, mirroring the code) and never rejects a malformed
percent escape: `%` followed by two hex digits decodes to that byte and
consumes the digits, any other `%` decodes to a literal `%` consuming
nothing further, with scanning continuing normally in both phases; `+`
decodes to a space.  CONFIRMED: the clauses below are exactly the
behaviour of `decode_percent_byte` (including the hex-digit table of
`to_digit`, checked for all 256 bytes) and of the `%`/`+` arms of both
scanning phases of `QueryParser::next`. -/
theorem C10_percent_decoding_is_lenient :
    (∀ b1 b2 rest d1 d2, toDigit b1 = some d1 → toDigit b2 = some d2 →
      decodePercentByte (b1 :: b2 :: rest) = some ((d1 <<< 4) ||| d2, rest)) ∧
    (∀ b1 b2 rest, toDigit b1 = none →
      decodePercentByte (b1 :: b2 :: rest) = none) ∧
    (∀ b1 b2 rest, toDigit b2 = none →
      decodePercentByte (b1 :: b2 :: rest) = none) ∧
    (∀ b, decodePercentByte [b] = none) ∧
    decodePercentByte [] = none ∧
    (∀ b, b < 256 → toDigit b =
      (if 48 ≤ b ∧ b ≤ 57 then some (b - 48)
       else if 65 ≤ b ∧ b ≤ 70 then some (b - 55)
       else if 97 ≤ b ∧ b ≤ 102 then some (b - 87)
       else none)) ∧
    (∀ fuel rest acc, decodePercentByte rest = none →
      keyLoop (fuel + 1) (37 :: rest) acc = keyLoop fuel rest (pushLimited 32 acc 37)) ∧
    (∀ fuel rest acc d rest', decodePercentByte rest = some (d, rest') →
      keyLoop (fuel + 1) (37 :: rest) acc = keyLoop fuel rest' (pushLimited 32 acc d)) ∧
    (∀ fuel rest acc,
      keyLoop (fuel + 1) (43 :: rest) acc = keyLoop fuel rest (pushLimited 32 acc 32)) ∧
    (∀ fuel rest acc, decodePercentByte rest = none →
      valueLoop (fuel + 1) (37 :: rest) acc = valueLoop fuel rest (pushLimited 256 acc 37)) ∧
    (∀ fuel rest acc d rest', decodePercentByte rest = some (d, rest') →
      valueLoop (fuel + 1) (37 :: rest) acc = valueLoop fuel rest' (pushLimited 256 acc d)) ∧
    (∀ fuel rest acc,
      valueLoop (fuel + 1) (43 :: rest) acc = valueLoop fuel rest (pushLimited 256 acc 32)) := by
  refine ⟨?_, ?_, ?_, ?_, rfl, ?_, ?_, ?_, ?_, ?_, ?_, ?_⟩
  · intro b1 b2 rest d1 d2 h1 h2
    simp [decodePercentByte, h1, h2]
  · intro b1 b2 rest h1
    simp [decodePercentByte, h1]
  · intro b1 b2 rest h2
    rcases h1 : toDigit b1 with _ | d1 <;> simp [decodePercentByte, h1, h2]
  · intro b
    simp [decodePercentByte]
  · decide
  · intro fuel rest acc h
    simp [keyLoop, h]
  · intro fuel rest acc d rest' h
    simp [keyLoop, h]
  · intro fuel rest acc
    simp [keyLoop]
  · intro fuel rest acc h
    simp [valueLoop, h]
  · intro fuel rest acc d rest' h
    simp [valueLoop, h]
  · intro fuel rest acc
    simp [valueLoop]

/-- Witness for C10: `%41` decodes to byte 65, `%z` stays a literal `%`
followed by a normally-processed `z`, `+` becomes a space. -/
theorem C10_percent_decoding_is_lenient_witness :
    decodePercentByte (52 :: 49 :: [120]) = some ((4 <<< 4) ||| 1, [120]) ∧
      keyLoop (2 + 1) (37 :: [122]) [] = keyLoop 2 [122] (pushLimited 32 [] 37) ∧
      valueLoop (2 + 1) (43 :: [122]) [] = valueLoop 2 [122] (pushLimited 256 [] 32) :=
  ⟨C10_percent_decoding_is_lenient.1 52 49 [120] 4 1 (by decide) (by decide),
    (C10_percent_decoding_is_lenient.2.2.2.2.2.2.1) 2 [122] [] (by decide),
    (C10_percent_decoding_is_lenient.2.2.2.2.2.2.2.2.2.2.2) 2 [122] []⟩

theorem StateMono.refl (st : ParseState) : StateMono st st :=
  ⟨id, id, id, id, id, id, id, id, id, id⟩

theorem StateMono.trans {s1 s2 s3 : ParseState}
    (h : StateMono s1 s2) (h' : StateMono s2 s3) : StateMono s1 s3 :=
  ⟨h'.1 ∘ h.1, h'.2.1 ∘ h.2.1, h'.2.2.1 ∘ h.2.2.1, h'.2.2.2.1 ∘ h.2.2.2.1,
    h'.2.2.2.2.1 ∘ h.2.2.2.2.1, h'.2.2.2.2.2.1 ∘ h.2.2.2.2.2.1,
    h'.2.2.2.2.2.2.1 ∘ h.2.2.2.2.2.2.1, h'.2.2.2.2.2.2.2.1 ∘ h.2.2.2.2.2.2.2.1,
    h'.2.2.2.2.2.2.2.2.1 ∘ h.2.2.2.2.2.2.2.2.1,
    h'.2.2.2.2.2.2.2.2.2 ∘ h.2.2.2.2.2.2.2.2.2⟩

theorem parseField_ok_mono {st : ParseState} {k v : Bytes} {st' : ParseState}
    (h : parseField st k v = .ok st') : StateMono st st' := by
  rw [parseField] at h
  by_cases h1 : k = asciiBytes ("info_hash")
  · rw [if_pos h1] at h
    split at h
    · exact absurd h (by simp)
    · obtain rfl := Except.ok.inj h
      exact ⟨fun _ => rfl, id, id, id, id, id, id, id, id, id⟩
  rw [if_neg h1] at h
  by_cases h2 : k = asciiBytes ("peer_id")
  · rw [if_pos h2] at h
    split at h
    · exact absurd h (by simp)
    · obtain rfl := Except.ok.inj h
      exact ⟨id, fun _ => rfl, id, id, id, id, id, id, id, id⟩
  rw [if_neg h2] at h
  by_cases h3 : k = asciiBytes ("port")
  · rw [if_pos h3] at h
    split at h
    · exact absurd h (by simp)
    · rcases hm : rustParseUnsigned v 65535 with _ | p <;> simp only [hm] at h
      · exact absurd h (by simp)
      · split at h
        · exact absurd h (by simp)
        · next hp =>
          obtain rfl := Except.ok.inj h
          exact ⟨id, id, fun _ => hp, id, id, id, id, id, id, id⟩
  rw [if_neg h3] at h
  by_cases h4 : k = asciiBytes ("uploaded")
  · rw [if_pos h4] at h
    split at h
    · exact absurd h (by simp)
    · rcases hm : rustParseSigned v i64Min i64Max with _ | n <;> simp only [hm] at h
      · exact absurd h (by simp)
      · obtain rfl := Except.ok.inj h
        exact ⟨id, id, id, fun _ => rfl, id, id, id, id, id, id⟩
  rw [if_neg h4] at h
  by_cases h5 : k = asciiBytes ("downloaded")
  · rw [if_pos h5] at h
    split at h
    · exact absurd h (by simp)
    · rcases hm : rustParseSigned v i64Min i64Max with _ | n <;> simp only [hm] at h
      · exact absurd h (by simp)
      · obtain rfl := Except.ok.inj h
        exact ⟨id, id, id, id, fun _ => rfl, id, id, id, id, id⟩
  rw [if_neg h5] at h
  by_cases h6 : k = asciiBytes ("left")
  · rw [if_pos h6] at h
    split at h
    · exact absurd h (by simp)
    · rcases hm : rustParseSigned v i64Min i64Max with _ | n <;> simp only [hm] at h
      · exact absurd h (by simp)
      · obtain rfl := Except.ok.inj h
        exact ⟨id, id, id, id, id, fun _ => rfl, id, id, id, id⟩
  rw [if_neg h6] at h
  by_cases h7 : k = asciiBytes ("event")
  · rw [if_pos h7] at h
    split at h
    · exact absurd h (by simp)
    · obtain rfl := Except.ok.inj h
      exact ⟨id, id, id, id, id, id, fun _ => rfl, id, id, id⟩
  rw [if_neg h7] at h
  by_cases h8 : k = asciiBytes ("ip")
  · rw [if_pos h8] at h
    split at h
    · exact absurd h (by simp)
    · rcases hm : parseIpAddr v with _ | ip <;> simp only [hm] at h
      · exact absurd h (by simp)
      · obtain rfl := Except.ok.inj h
        exact ⟨id, id, id, id, id, id, id, fun _ => rfl, id, id⟩
  rw [if_neg h8] at h
  by_cases h9 : k = asciiBytes ("numwant")
  · rw [if_pos h9] at h
    split at h
    · exact absurd h (by simp)
    · rcases hm : rustParseSigned v i32Min i32Max with _ | n <;> simp only [hm] at h
      · exact absurd h (by simp)
      · obtain rfl := Except.ok.inj h
        exact ⟨id, id, id, id, id, id, id, id, fun _ => rfl, id⟩
  rw [if_neg h9] at h
  by_cases h10 : k = asciiBytes ("key")
  · rw [if_pos h10] at h
    split at h
    · exact absurd h (by simp)
    · rcases hm : rustParseUnsigned v u32Max with _ | n <;> simp only [hm] at h
      · exact absurd h (by simp)
      · obtain rfl := Except.ok.inj h
        exact ⟨id, id, id, id, id, id, id, id, id, fun _ => rfl⟩
  rw [if_neg h10] at h
  obtain rfl := Except.ok.inj h
  exact StateMono.refl st

theorem parsePairs_ok_mono {st : ParseState} {l : List (Bytes × Bytes)}
    {st' : ParseState} (h : parsePairs st l = .ok st') : StateMono st st' := by
  induction l generalizing st with
  | nil =>
    obtain rfl : st = st' := by
      simpa [parsePairs] using h
    exact StateMono.refl st
  | cons p rest ih =>
    rcases p with ⟨k, v⟩
    rw [parsePairs] at h
    rcases hf : parseField st k v with e | st1 <;> simp only [hf] at h
    · exact absurd h (by simp)
    · exact (parseField_ok_mono hf).trans (ih h)

theorem parseField_info_hash_eq (st : ParseState) (v : Bytes) :
    parseField st (asciiBytes ("info_hash")) v =
      (if st.info_hash.isSome ∨ ¬ v.length = 20 then .error .invalidInfoHash
       else .ok { st with info_hash := some v }) := rfl

theorem parseField_peer_id_eq (st : ParseState) (v : Bytes) :
    parseField st (asciiBytes ("peer_id")) v =
      (if st.peer_id.isSome ∨ ¬ v.length = 20 then .error .invalidPeerId
       else .ok { st with peer_id := some v }) := rfl

theorem parseField_port_eq (st : ParseState) (v : Bytes) :
    parseField st (asciiBytes ("port")) v =
      (if ¬ st.port = 0 ∨ 5 < v.length ∨ v = [] then .error .invalidPort
       else
         match rustParseUnsigned v 65535 with
         | some p => if p = 0 then .error .invalidPort else .ok { st with port := p }
         | none => .error .invalidPort) := rfl

theorem parseField_uploaded_eq (st : ParseState) (v : Bytes) :
    parseField st (asciiBytes ("uploaded")) v =
      (if st.uploaded.isSome ∨ 19 < v.length ∨ v = [] then .error .invalidParams
       else
         match rustParseSigned v i64Min i64Max with
         | some n => .ok { st with uploaded := some n }
         | none => .error .invalidParams) := rfl

theorem parseField_downloaded_eq (st : ParseState) (v : Bytes) :
    parseField st (asciiBytes ("downloaded")) v =
      (if st.downloaded.isSome ∨ 19 < v.length ∨ v = [] then .error .invalidParams
       else
         match rustParseSigned v i64Min i64Max with
         | some n => .ok { st with downloaded := some n }
         | none => .error .invalidParams) := rfl

theorem parseField_left_eq (st : ParseState) (v : Bytes) :
    parseField st (asciiBytes ("left")) v =
      (if st.left.isSome ∨ 19 < v.length ∨ v = [] then .error .invalidParams
       else
         match rustParseSigned v i64Min i64Max with
         | some n => .ok { st with left := some n }
         | none => .error .invalidParams) := rfl

theorem parseField_event_eq (st : ParseState) (v : Bytes) :
    parseField st (asciiBytes ("event")) v =
      (if st.event.isSome then .error .invalidParams
       else
         let ev : Event :=
           if v = asciiBytes ("started") then .started
           else if v = asciiBytes ("stopped") then .stopped
           else if v = asciiBytes ("completed") then .completed
           else .none
         .ok { st with event := some ev }) := rfl

theorem parseField_ip_eq (st : ParseState) (v : Bytes) :
    parseField st (asciiBytes ("ip")) v =
      (if st.unsafe_ip.isSome then .error .invalidParams
       else
         match parseIpAddr v with
         | some ip => .ok { st with unsafe_ip := some ip }
         | none => .error .invalidParams) := rfl

theorem parseField_numwant_eq (st : ParseState) (v : Bytes) :
    parseField st (asciiBytes ("numwant")) v =
      (if st.num_want.isSome then .error .invalidParams
       else
         match rustParseSigned v i32Min i32Max with
         | some n => .ok { st with num_want := some n }
         | none => .error .invalidParams) := rfl

theorem parseField_key_eq (st : ParseState) (v : Bytes) :
    parseField st (asciiBytes ("key")) v =
      (if st.key.isSome then .error .invalidParams
       else
         match rustParseUnsigned v u32Max with
         | some n => .ok { st with key := some n }
         | none => .error .invalidParams) := rfl

theorem sets_info_hash {st : ParseState} {v : Bytes} {st' : ParseState}
    (h : parseField st (asciiBytes ("info_hash")) v = .ok st') :
    st'.info_hash.isSome = true := by
  rw [parseField_info_hash_eq] at h
  split at h
  · exact absurd h (by simp)
  · obtain rfl := Except.ok.inj h
    rfl

theorem errs_info_hash (st : ParseState) (v : Bytes)
    (h : st.info_hash.isSome = true) :
    parseField st (asciiBytes ("info_hash")) v = .error .invalidInfoHash := by
  rw [parseField_info_hash_eq, if_pos (Or.inl h)]

theorem sets_peer_id {st : ParseState} {v : Bytes} {st' : ParseState}
    (h : parseField st (asciiBytes ("peer_id")) v = .ok st') :
    st'.peer_id.isSome = true := by
  rw [parseField_peer_id_eq] at h
  split at h
  · exact absurd h (by simp)
  · obtain rfl := Except.ok.inj h
    rfl

theorem errs_peer_id (st : ParseState) (v : Bytes)
    (h : st.peer_id.isSome = true) :
    parseField st (asciiBytes ("peer_id")) v = .error .invalidPeerId := by
  rw [parseField_peer_id_eq, if_pos (Or.inl h)]

theorem sets_port {st : ParseState} {v : Bytes} {st' : ParseState}
    (h : parseField st (asciiBytes ("port")) v = .ok st') : ¬ st'.port = 0 := by
  rw [parseField_port_eq] at h
  split at h
  · exact absurd h (by simp)
  · rcases hm : rustParseUnsigned v 65535 with _ | p <;> simp only [hm] at h
    · exact absurd h (by simp)
    · split at h
      · exact absurd h (by simp)
      · next hp =>
        obtain rfl := Except.ok.inj h
        simpa using hp

theorem errs_port (st : ParseState) (v : Bytes) (h : ¬ st.port = 0) :
    parseField st (asciiBytes ("port")) v = .error .invalidPort := by
  rw [parseField_port_eq, if_pos (Or.inl h)]

theorem sets_uploaded {st : ParseState} {v : Bytes} {st' : ParseState}
    (h : parseField st (asciiBytes ("uploaded")) v = .ok st') :
    st'.uploaded.isSome = true := by
  rw [parseField_uploaded_eq] at h
  split at h
  · exact absurd h (by simp)
  · rcases hm : rustParseSigned v i64Min i64Max with _ | n <;> simp only [hm] at h
    · exact absurd h (by simp)
    · obtain rfl := Except.ok.inj h
      rfl

theorem errs_uploaded (st : ParseState) (v : Bytes)
    (h : st.uploaded.isSome = true) :
    parseField st (asciiBytes ("uploaded")) v = .error .invalidParams := by
  rw [parseField_uploaded_eq, if_pos (Or.inl h)]

theorem sets_downloaded {st : ParseState} {v : Bytes} {st' : ParseState}
    (h : parseField st (asciiBytes ("downloaded")) v = .ok st') :
    st'.downloaded.isSome = true := by
  rw [parseField_downloaded_eq] at h
  split at h
  · exact absurd h (by simp)
  · rcases hm : rustParseSigned v i64Min i64Max with _ | n <;> simp only [hm] at h
    · exact absurd h (by simp)
    · obtain rfl := Except.ok.inj h
      rfl

theorem errs_downloaded (st : ParseState) (v : Bytes)
    (h : st.downloaded.isSome = true) :
    parseField st (asciiBytes ("downloaded")) v = .error .invalidParams := by
  rw [parseField_downloaded_eq, if_pos (Or.inl h)]

theorem sets_left {st : ParseState} {v : Bytes} {st' : ParseState}
    (h : parseField st (asciiBytes ("left")) v = .ok st') :
    st'.left.isSome = true := by
  rw [parseField_left_eq] at h
  split at h
  · exact absurd h (by simp)
  · rcases hm : rustParseSigned v i64Min i64Max with _ | n <;> simp only [hm] at h
    · exact absurd h (by simp)
    · obtain rfl := Except.ok.inj h
      rfl

theorem errs_left (st : ParseState) (v : Bytes) (h : st.left.isSome = true) :
    parseField st (asciiBytes ("left")) v = .error .invalidParams := by
  rw [parseField_left_eq, if_pos (Or.inl h)]

theorem sets_event {st : ParseState} {v : Bytes} {st' : ParseState}
    (h : parseField st (asciiBytes ("event")) v = .ok st') :
    st'.event.isSome = true := by
  rw [parseField_event_eq] at h
  split at h
  · exact absurd h (by simp)
  · obtain rfl := Except.ok.inj h
    rfl

theorem errs_event (st : ParseState) (v : Bytes) (h : st.event.isSome = true) :
    parseField st (asciiBytes ("event")) v = .error .invalidParams := by
  rw [parseField_event_eq, if_pos h]

theorem sets_ip {st : ParseState} {v : Bytes} {st' : ParseState}
    (h : parseField st (asciiBytes ("ip")) v = .ok st') :
    st'.unsafe_ip.isSome = true := by
  rw [parseField_ip_eq] at h
  split at h
  · exact absurd h (by simp)
  · rcases hm : parseIpAddr v with _ | ip <;> simp only [hm] at h
    · exact absurd h (by simp)
    · obtain rfl := Except.ok.inj h
      rfl

theorem errs_ip (st : ParseState) (v : Bytes) (h : st.unsafe_ip.isSome = true) :
    parseField st (asciiBytes ("ip")) v = .error .invalidParams := by
  rw [parseField_ip_eq, if_pos h]

theorem sets_numwant {st : ParseState} {v : Bytes} {st' : ParseState}
    (h : parseField st (asciiBytes ("numwant")) v = .ok st') :
    st'.num_want.isSome = true := by
  rw [parseField_numwant_eq] at h
  split at h
  · exact absurd h (by simp)
  · rcases hm : rustParseSigned v i32Min i32Max with _ | n <;> simp only [hm] at h
    · exact absurd h (by simp)
    · obtain rfl := Except.ok.inj h
      rfl

theorem errs_numwant (st : ParseState) (v : Bytes)
    (h : st.num_want.isSome = true) :
    parseField st (asciiBytes ("numwant")) v = .error .invalidParams := by
  rw [parseField_numwant_eq, if_pos h]

theorem sets_key {st : ParseState} {v : Bytes} {st' : ParseState}
    (h : parseField st (asciiBytes ("key")) v = .ok st') :
    st'.key.isSome = true := by
  rw [parseField_key_eq] at h
  split at h
  · exact absurd h (by simp)
  · rcases hm : rustParseUnsigned v u32Max with _ | n <;> simp only [hm] at h
    · exact absurd h (by simp)
    · obtain rfl := Except.ok.inj h
      rfl

theorem errs_key (st : ParseState) (v : Bytes) (h : st.key.isSome = true) :
    parseField st (asciiBytes ("key")) v = .error .invalidParams := by
  rw [parseField_key_eq, if_pos h]

theorem parsePairs_append (xs ys : List (Bytes × Bytes)) (st : ParseState) :
    parsePairs st (xs ++ ys) =
      match parsePairs st xs with
      | .ok st' => parsePairs st' ys
      | .error e => .error e := by
  induction xs generalizing st with
  | nil => simp [parsePairs]
  | cons p rest ih =>
    rcases p with ⟨k, v⟩
    simp only [List.cons_append, parsePairs]
    rcases hf : parseField st k v with e | st1 <;> simp only [hf]
    exact ih st1

/-- The spine of the duplicate-declaration argument, generic in the field
predicate `G`: the first declaration of `k` sets the field, every later
successful step keeps it set, and a second declaration then fails with
the arm's duplicate error. -/
theorem dupSecondDeclaration
    (st0 : ParseState) (l1 l2 l3 : List (Bytes × Bytes)) (k v1 v2 : Bytes)
    (e : Error) (G : ParseState → Prop)
    (hsets : ∀ st st', parseField st k v1 = .ok st' → G st')
    (hmono : ∀ st st', StateMono st st' → G st → G st')
    (herrs : ∀ st, G st → parseField st k v2 = .error e) :
    (∃ err, parsePairs st0 (l1 ++ (k, v1) :: (l2 ++ (k, v2) :: l3)) = .error err) ∧
    (∀ st, parsePairs st0 (l1 ++ (k, v1) :: l2) = .ok st →
      parsePairs st0 (l1 ++ (k, v1) :: (l2 ++ (k, v2) :: l3)) = .error e) := by
  have hsplit : l1 ++ (k, v1) :: (l2 ++ (k, v2) :: l3) =
      (l1 ++ (k, v1) :: l2) ++ ((k, v2) :: l3) := by
    simp
  have key : ∀ st, parsePairs st0 (l1 ++ (k, v1) :: l2) = .ok st →
      parsePairs st0 (l1 ++ (k, v1) :: (l2 ++ (k, v2) :: l3)) = .error e := by
    intro st hpre
    have hG : G st := by
      have h1 := parsePairs_append l1 ((k, v1) :: l2) st0
      rw [h1] at hpre
      rcases ha : parsePairs st0 l1 with aerr | stA <;> simp only [ha] at hpre
      · exact absurd hpre (by simp)
      · rw [parsePairs] at hpre
        rcases hb : parseField stA k v1 with berr | stB <;> simp only [hb] at hpre
        · exact absurd hpre (by simp)
        · exact hmono stB st (parsePairs_ok_mono hpre) (hsets stA stB hb)
    rw [hsplit, parsePairs_append, hpre]
    show parsePairs st ((k, v2) :: l3) = .error e
    rw [parsePairs]
    simp only [herrs st hG]
  refine ⟨?_, key⟩
  rcases hp : parsePairs st0 (l1 ++ (k, v1) :: l2) with err | st
  · refine ⟨err, ?_⟩
    rw [hsplit, parsePairs_append, hp]
  · exact ⟨e, key st hp⟩

/-- C8 (amended): parsing a query in which a recognized field is declared
twice fails; when parsing reaches the second declaration, the error is the
duplicated arm's own error — *InvalidParameters* for `uploaded`,
`downloaded`, `left`, `event`, `ip`, `numwant` and `key`, but
*InvalidInfoHash* / *InvalidPeerId* / *InvalidPort* for `info_hash`,
`peer_id` and `port` (the original claim's "always InvalidParameters" is
refuted by `C8_duplicate_info_hash_counterexample`). -/
theorem C8_duplicate_field_declaration_fails
    (st0 : ParseState) (l1 l2 l3 : List (Bytes × Bytes)) (k v1 v2 : Bytes)
    (e : Error) (hk : dupError k = some e) :
    (∃ err, parsePairs st0 (l1 ++ (k, v1) :: (l2 ++ (k, v2) :: l3)) = .error err) ∧
    (∀ st, parsePairs st0 (l1 ++ (k, v1) :: l2) = .ok st →
      parsePairs st0 (l1 ++ (k, v1) :: (l2 ++ (k, v2) :: l3)) = .error e) := by
  rw [dupError] at hk
  split_ifs at hk with h1 h2 h3 h4
  · obtain rfl := Option.some.inj hk
    subst h1
    exact dupSecondDeclaration st0 l1 l2 l3 _ v1 v2 _
      (fun st => st.info_hash.isSome = true) (fun _ _ h => sets_info_hash h)
      (fun _ _ m => m.1) (fun st h => errs_info_hash st v2 h)
  · obtain rfl := Option.some.inj hk
    subst h2
    exact dupSecondDeclaration st0 l1 l2 l3 _ v1 v2 _
      (fun st => st.peer_id.isSome = true) (fun _ _ h => sets_peer_id h)
      (fun _ _ m => m.2.1) (fun st h => errs_peer_id st v2 h)
  · obtain rfl := Option.some.inj hk
    subst h3
    exact dupSecondDeclaration st0 l1 l2 l3 _ v1 v2 _
      (fun st => ¬ st.port = 0) (fun _ _ h => sets_port h)
      (fun _ _ m => m.2.2.1) (fun st h => errs_port st v2 h)
  · obtain rfl := Option.some.inj hk
    rcases h4 with h | h | h | h | h | h | h <;> subst h
    · exact dupSecondDeclaration st0 l1 l2 l3 _ v1 v2 _
        (fun st => st.uploaded.isSome = true) (fun _ _ h => sets_uploaded h)
        (fun _ _ m => m.2.2.2.1) (fun st h => errs_uploaded st v2 h)
    · exact dupSecondDeclaration st0 l1 l2 l3 _ v1 v2 _
        (fun st => st.downloaded.isSome = true) (fun _ _ h => sets_downloaded h)
        (fun _ _ m => m.2.2.2.2.1) (fun st h => errs_downloaded st v2 h)
    · exact dupSecondDeclaration st0 l1 l2 l3 _ v1 v2 _
        (fun st => st.left.isSome = true) (fun _ _ h => sets_left h)
        (fun _ _ m => m.2.2.2.2.2.1) (fun st h => errs_left st v2 h)
    · exact dupSecondDeclaration st0 l1 l2 l3 _ v1 v2 _
        (fun st => st.event.isSome = true) (fun _ _ h => sets_event h)
        (fun _ _ m => m.2.2.2.2.2.2.1) (fun st h => errs_event st v2 h)
    · exact dupSecondDeclaration st0 l1 l2 l3 _ v1 v2 _
        (fun st => st.unsafe_ip.isSome = true) (fun _ _ h => sets_ip h)
        (fun _ _ m => m.2.2.2.2.2.2.2.1) (fun st h => errs_ip st v2 h)
    · exact dupSecondDeclaration st0 l1 l2 l3 _ v1 v2 _
        (fun st => st.num_want.isSome = true) (fun _ _ h => sets_numwant h)
        (fun _ _ m => m.2.2.2.2.2.2.2.2.1) (fun st h => errs_numwant st v2 h)
    · exact dupSecondDeclaration st0 l1 l2 l3 _ v1 v2 _
        (fun st => st.key.isSome = true) (fun _ _ h => sets_key h)
        (fun _ _ m => m.2.2.2.2.2.2.2.2.2) (fun st h => errs_key st v2 h)

/-- Witness for C8: `uploaded` declared twice fails with
*InvalidParameters*. -/
theorem C8_duplicate_field_declaration_fails_witness :
    (∃ err, parsePairs (ParseState.init (.v4 [150, 150, 150, 150]))
        ([] ++ (asciiBytes ("uploaded"), asciiBytes ("1")) ::
          ([] ++ (asciiBytes ("uploaded"), asciiBytes ("2")) :: [])) = .error err) ∧
    (∀ st, parsePairs (ParseState.init (.v4 [150, 150, 150, 150]))
        ([] ++ (asciiBytes ("uploaded"), asciiBytes ("1")) :: []) = .ok st →
      parsePairs (ParseState.init (.v4 [150, 150, 150, 150]))
        ([] ++ (asciiBytes ("uploaded"), asciiBytes ("1")) ::
          ([] ++ (asciiBytes ("uploaded"), asciiBytes ("2")) :: [])) =
        .error .invalidParams) :=
  C8_duplicate_field_declaration_fails (ParseState.init (.v4 [150, 150, 150, 150]))
    [] [] [] (asciiBytes ("uploaded")) (asciiBytes ("1")) (asciiBytes ("2"))
    .invalidParams (by decide)

set_option maxRecDepth 8000 in
/-- Counterexample to C8 as stated: a query string declaring `info_hash`
twice fails with *InvalidInfoHash*, not *InvalidParameters*. -/
theorem C8_duplicate_info_hash_counterexample :
    runQuery (.v4 [150, 150, 150, 150]) c8Query = .error .invalidInfoHash ∧
      ¬ (Error.invalidInfoHash = Error.invalidParams) :=
  ⟨rfl, by decide⟩

/-- The positive half of C5's temporal consequence, for any digest: an id
issued at second `t` verifies at every second `t' ∈ [t, t + 120]` — at
such a `t'` the issue window is the current or the previous one.  (The
negative half, failure after `t + 240`, is equivalent to the truncated
digest never colliding across windows and is not settled here.) -/
theorem verifyConnectionId_within_window (digest : List Nat → List Nat)
    (secret : Bytes) (ip : IpAddr) (t t' : Nat)
    (h1 : t ≤ t') (h2 : t' ≤ t + 120) :
    verifyConnectionId digest secret (twoMinWindow t') ip
      (makeConnectionId digest secret (twoMinWindow t) (ipToBytes ip)) = true := by
  have hw : twoMinWindow t' = twoMinWindow t ∨ twoMinWindow t' = twoMinWindow t + 1 := by
    unfold twoMinWindow
    omega
  rcases hw with hw | hw <;>
    · unfold verifyConnectionId
      rw [hw]
      simp

end UTrackr

